import Mathlib

/-!
Verification of the collision-detection bounding-volume library
(`axis-aligned-bounding-box.cpp` and the surrounding `collision` namespace).

Numbers are modelled by exact rationals (`ℚ`); vectors `vec3` by
`Fin 3 → ℚ` and the glm column-major matrices `mat3` / `mat4` by
`Fin n → Fin n → ℚ`, indexed as in the source: `m j i` is the entry of
column `j`, row `i`, matching the C++ `m[j][i]`.
-/

namespace Collision

/-- glm `vec3` over exact rationals. -/
def V3 : Type := Fin 3 → ℚ

instance : Add V3 := ⟨fun a b i => a i + b i⟩
instance : Sub V3 := ⟨fun a b i => a i - b i⟩
instance : Neg V3 := ⟨fun a i => -(a i)⟩
instance : SMul ℚ V3 := ⟨fun t a i => t * a i⟩
instance : DecidableEq V3 := fun a b =>
  decidable_of_iff (∀ i, a i = b i) ⟨funext, fun h i => congrFun h i⟩

/-- glm `mat3`, column major: `m j i` is `m[j][i]` in the source. -/
def Mat3 : Type := Fin 3 → Fin 3 → ℚ

/-- glm `mat4`, column major: `m j i` is `m[j][i]` in the source. -/
def Mat4 : Type := Fin 4 → Fin 4 → ℚ

instance : DecidableEq Mat4 := fun a b =>
  decidable_of_iff (∀ j i, a j i = b j i)
    ⟨fun h => funext fun j => funext fun i => h j i,
     fun h j i => congrFun (congrFun h j) i⟩

/-- The `mat3(transform)` conversion: the upper-left 3×3 block of a `mat4`. -/
def upperLeft (m : Mat4) : Mat3 := fun j i => m j.castSucc i.castSucc

/-- The glm `mat4(mat3)` conversion: embeds the 3×3 block in the upper left,
with the remaining row and column taken from the identity. -/
def mat4OfMat3 (m : Mat3) : Mat4 := fun j i =>
  if hj : (j : ℕ) < 3 then
    if hi : (i : ℕ) < 3 then m ⟨j, hj⟩ ⟨i, hi⟩ else 0
  else
    if i = j then 1 else 0

/-- Overwrite column 3 of a `mat4` (the C++ `this->transform[3] = center`). -/
def setCol3 (m : Mat4) (c : Fin 4 → ℚ) : Mat4 := fun j i =>
  if j = 3 then c i else m j i

/-- The identity `mat4`. -/
def idMat4 : Mat4 := fun j i => if i = j then 1 else 0

/-- Dot product of two `vec3`s. -/
def dot (a b : V3) : ℚ := a 0 * b 0 + a 1 * b 1 + a 2 * b 2

/-- Squared euclidean distance between two points. -/
def dist2 (a b : V3) : ℚ := dot (a - b) (a - b)

/-- Cross product of two `vec3`s. -/
def cross (a b : V3) : V3 :=
  ![a 1 * b 2 - a 2 * b 1, a 2 * b 0 - a 0 * b 2, a 0 * b 1 - a 1 * b 0]

/-- Clamp a scalar to `[lo, hi]`. -/
def clamp (x lo hi : ℚ) : ℚ := max lo (min hi x)

/-!
## AxisAlignedBoundingBox

State of one `AxisAlignedBoundingBox` object.  `initialHalfExtents` and
`halfExtents` are the derived-class fields of `axis-aligned-bounding-box.cpp`;
`transform` is the field inherited from `BoundingVolume`.

Modelled from the spec: the `BoundingVolume` base class is not among the
given sources; per the spec it owns the world `transform` (initially the
identity — post-construction derived fields equal the identity-transform
values) and derives the center from the transform's translation column.
-/

structure AABBState where
  initialHalfExtents : V3
  halfExtents : V3
  transform : Mat4
deriving DecidableEq

/-- `AxisAlignedBoundingBox::AxisAlignedBoundingBox(const vec3&)`:
both extents fields start at the given initial half extents; the inherited
transform starts as the identity (modelled from the spec, see above). -/
def mkAABB (initialHalfExtents : V3) : AABBState :=
  { initialHalfExtents := initialHalfExtents
    halfExtents := initialHalfExtents
    transform := idMat4 }

/-- `BoundingVolume::getCenter`'s first three components: the translation
column of the stored transform.  Modelled from the spec: "center:
world-space centroid, derived from `transform`'s translation column". -/
def getCenter (s : AABBState) : V3 := fun i => s.transform 3 i.castSucc

/-- `AxisAlignedBoundingBox::setHalfExtents`: overwrites both fields. -/
def setHalfExtents (s : AABBState) (h : V3) : AABBState :=
  { s with initialHalfExtents := h, halfExtents := h }

/-- One iteration of the loop in `getSquaredDistancePtPointAABB`: add any
excess distance of `p[i]` outside the box extents on axis `i`. -/
def sqDistStep (mn mx p : V3) (sqDist : ℚ) (i : Fin 3) : ℚ :=
  let v := p i
  let s1 := if v < mn i then sqDist + (mn i - v) * (mn i - v) else sqDist
  if v > mx i then s1 + (v - mx i) * (v - mx i) else s1

/-- `AxisAlignedBoundingBox::getSquaredDistancePtPointAABB(const vec3& p)`:
per-axis accumulation of squared excess outside `[center - halfExtents,
center + halfExtents]`. -/
def getSquaredDistancePtPointAABB (s : AABBState) (p : V3) : ℚ :=
  let mn : V3 := getCenter s - s.halfExtents
  let mx : V3 := getCenter s + s.halfExtents
  List.foldl (sqDistStep mn mx p) 0 [0, 1, 2]

/-- The body of the `update` loop for axis `i`: starting from `0`, add
`fabs(upperLeft[j][i] * initialHalfExtents[j])` for `j = 0, 1, 2`. -/
def updatedHalfExtent (ul : Mat3) (ihe : V3) (i : Fin 3) : ℚ :=
  List.foldl (fun acc j => acc + |ul j i * ihe j|) 0 [0, 1, 2]

/-- `AxisAlignedBoundingBox::update(const mat4& transform)`: recompute the
world half extents from the rotation part and the initial half extents, and
store `mat4(upperLeft)` with its column 3 replaced by the input's column 3. -/
def update (s : AABBState) (t : Mat4) : AABBState :=
  let ul : Mat3 := upperLeft t
  let center : Fin 4 → ℚ := t 3
  { s with
    halfExtents := fun i => updatedHalfExtent ul s.initialHalfExtents i
    transform := setCol3 (mat4OfMat3 ul) center }

/-- The AABB-vs-AABB branch of `AxisAlignedBoundingBox::isIntersecting`:
return `false` as soon as some axis separates the boxes, else `true`. -/
def aabbVsAabb (s b : AABBState) : Bool :=
  List.all [0, 1, 2] fun i : Fin 3 =>
    decide (¬ |getCenter s i - getCenter b i| >
      s.halfExtents i + b.halfExtents i)

/-- The AABB-vs-sphere branch of `AxisAlignedBoundingBox::isIntersecting`:
squared clamped distance from the sphere center against `radius * radius`. -/
def aabbVsSphere (s : AABBState) (sphereCenter : V3) (radius : ℚ) : Bool :=
  decide (getSquaredDistancePtPointAABB s sphereCenter ≤ radius * radius)

/-!
## The other concrete volumes and the double-dispatch protocol

Only the AABB implementation and the OBB header are among the given
sources; the `BoundingSphere`, `OrientedBoundingBox` and `BoundingCapsule`
bodies are modelled from the spec below.
-/

/-- Squared distance from a point to a line segment: project `p - a` onto
`b - a`, clamp the parameter to `[0, 1]`.  A degenerate segment yields the
distance to `a`. -/
def pointSegDist2 (p a b : V3) : ℚ :=
  let d : V3 := b - a
  let dd := dot d d
  if dd = 0 then dist2 p a
  else dist2 p (a + clamp (dot (p - a) d / dd) 0 1 • d)

/-- Scalar core of the segment–segment distance: given the dot products
`a = d1·d1`, `e = d2·d2`, `b = d1·d2`, `c = d1·r`, `f = d2·r` with
`r = p1 - p2`, return the interior critical value when the unconstrained
minimiser lies in the parameter square, else the minimum over its edges. -/
def segSegAux (a e b c f : ℚ) (vInterior : ℚ → ℚ → ℚ) (vEdges : ℚ) : ℚ :=
  let den := a * e - b * b
  if den = 0 then vEdges
  else
    let s := (b * f - c * e) / den
    let t := (a * f - b * c) / den
    if 0 ≤ s ∧ s ≤ 1 ∧ 0 ≤ t ∧ t ≤ 1 then vInterior s t else vEdges

/-- Squared closest distance between segments `[p1, q1]` and `[p2, q2]`.
Modelled from the spec: "closest-distance-between-two-segments (general 3D
segment distance, handling the degenerate parallel-segments case)".  The
minimum of the convex quadratic over the parameter square is its interior
critical point when that lies in the square, and otherwise (including the
degenerate parallel case, where the valley of minima meets the boundary) is
attained on one of the four edges, each a point-to-segment problem. -/
def segSegDist2 (p1 q1 p2 q2 : V3) : ℚ :=
  let d1 : V3 := q1 - p1
  let d2 : V3 := q2 - p2
  let r : V3 := p1 - p2
  segSegAux (dot d1 d1) (dot d2 d2) (dot d1 d2) (dot d1 r) (dot d2 r)
    (fun s t => dist2 (p1 + s • d1) (p2 + t • d2))
    (min (min (pointSegDist2 p1 p2 q2) (pointSegDist2 q1 p2 q2))
         (min (pointSegDist2 p2 p1 q1) (pointSegDist2 q2 p1 q1)))

/-- State of an `OrientedBoundingBox`: world center plus the three
world-space axes and local half extents declared in
`oriented-bounding-box.hpp`. -/
structure OBBState where
  center : V3
  xAxis : V3
  yAxis : V3
  zAxis : V3
  halfExtents : V3
deriving DecidableEq

/-- The axes of an OBB as an indexed family. -/
def OBBState.axis (o : OBBState) : Fin 3 → V3
  | 0 => o.xAxis
  | 1 => o.yAxis
  | 2 => o.zAxis

/-- `OrientedBoundingBox::getClosestPtPointOBB`.  Modelled from the spec:
project `(p - center)` onto each local axis, clamp to the half extents,
reconstruct the point from the clamped projections. -/
def getClosestPtPointOBB (o : OBBState) (p : V3) : V3 :=
  o.center
    + clamp (dot (p - o.center) o.xAxis) (-(o.halfExtents 0)) (o.halfExtents 0) • o.xAxis
    + clamp (dot (p - o.center) o.yAxis) (-(o.halfExtents 1)) (o.halfExtents 1) • o.yAxis
    + clamp (dot (p - o.center) o.zAxis) (-(o.halfExtents 2)) (o.halfExtents 2) • o.zAxis

/-- Projected half width of an OBB onto a direction `l`. -/
def projRadius (o : OBBState) (l : V3) : ℚ :=
  o.halfExtents 0 * |dot o.xAxis l| + o.halfExtents 1 * |dot o.yAxis l|
    + o.halfExtents 2 * |dot o.zAxis l|

/-- Whether direction `l` is a separating axis for two OBBs: the projected
center separation exceeds the sum of projected half widths. -/
def sepAxis (o1 o2 : OBBState) (l : V3) : Bool :=
  decide (|dot (o2.center - o1.center) l| > projRadius o1 l + projRadius o2 l)

/-- The 15 candidate axes of the separating-axis test: three face normals
of each box and the nine pairwise cross products. -/
def satAxes (o1 o2 : OBBState) : List V3 :=
  [o1.xAxis, o1.yAxis, o1.zAxis, o2.xAxis, o2.yAxis, o2.zAxis,
   cross o1.xAxis o2.xAxis, cross o1.xAxis o2.yAxis, cross o1.xAxis o2.zAxis,
   cross o1.yAxis o2.xAxis, cross o1.yAxis o2.yAxis, cross o1.yAxis o2.zAxis,
   cross o1.zAxis o2.xAxis, cross o1.zAxis o2.yAxis, cross o1.zAxis o2.zAxis]

/-- The OBB-vs-OBB branch.  Modelled from the spec: separating-axis test
over the 15 candidate axes; the boxes intersect iff no candidate separates
them.  (Exact arithmetic makes the near-parallel epsilon guard moot: a zero
cross product never satisfies the strict separation inequality.) -/
def obbVsObb (o1 o2 : OBBState) : Bool :=
  ! (satAxes o1 o2).any (sepAxis o1 o2)

/-- The sphere-vs-OBB test, shared by the sphere's OBB branch and the OBB's
sphere branch.  Modelled from the spec: squared distance from the sphere
center to its closest point on the OBB, compared against `radius^2`. -/
def obbVsSphere (o : OBBState) (sphereCenter : V3) (radius : ℚ) : Bool :=
  decide (dist2 (getClosestPtPointOBB o sphereCenter) sphereCenter ≤ radius * radius)

/-- The OBB-vs-AABB branch.  Modelled from the spec: "symmetric delegation
via the AABB's own distance routine against `getClosestPtPointOBB`" — the
AABB's squared-distance routine applied to the closest point on the OBB to
the AABB's center (the spec gives no comparison threshold for this
radius-free pair; zero excess distance is taken as intersection). -/
def obbVsAabb (o : OBBState) (s : AABBState) : Bool :=
  decide (getSquaredDistancePtPointAABB s (getClosestPtPointOBB o (getCenter s)) ≤ 0)

/-- The capsule-vs-sphere test, shared by the capsule's sphere branch and
the sphere's capsule branch.  Modelled from the spec: point-to-segment
distance against the radius sum. -/
def capsuleVsSphere (p q : V3) (rc : ℚ) (sphereCenter : V3) (rs : ℚ) : Bool :=
  decide (pointSegDist2 sphereCenter p q ≤ (rc + rs) * (rc + rs))

/-- The capsule-vs-AABB branch.  Modelled from the spec: "segment-to-box
closest point (sampled/clamped along the segment) vs radius" — the segment
point closest to the box center is clamped onto the segment and its squared
box distance compared against `radius^2`. -/
def capsuleVsAabb (p q : V3) (rc : ℚ) (s : AABBState) : Bool :=
  let d : V3 := q - p
  let dd := dot d d
  let m : V3 := if dd = 0 then p
    else p + clamp (dot (getCenter s - p) d / dd) 0 1 • d
  decide (getSquaredDistancePtPointAABB s m ≤ rc * rc)

/-- The capsule-vs-OBB branch.  Modelled from the spec, analogously to the
AABB case: the segment point closest to the OBB center, then the squared
distance to its closest point on the OBB compared against `radius^2`. -/
def capsuleVsObb (p q : V3) (rc : ℚ) (o : OBBState) : Bool :=
  let d : V3 := q - p
  let dd := dot d d
  let m : V3 := if dd = 0 then p
    else p + clamp (dot (o.center - p) d / dd) 0 1 • d
  decide (dist2 (getClosestPtPointOBB o m) m ≤ rc * rc)

/-- The capsule-vs-capsule branch.  Modelled from the spec: closest
distance between the two segments against the sum of radii (compared in
squared form). -/
def capsuleVsCapsule (p1 q1 : V3) (r1 : ℚ) (p2 q2 : V3) (r2 : ℚ) : Bool :=
  decide (segSegDist2 p1 q1 p2 q2 ≤ (r1 + r2) * (r1 + r2))

/-- The sphere-vs-sphere branch.  Modelled from the spec:
`|c1 - c2| <= r1 + r2`, compared in squared form. -/
def sphereVsSphere (c1 : V3) (r1 : ℚ) (c2 : V3) (r2 : ℚ) : Bool :=
  decide (dist2 c1 c2 ≤ (r1 + r2) * (r1 + r2))

/-- A bounding volume: one of the four concrete types of the closed
dispatch set. -/
inductive Volume where
  | sphere (center : V3) (radius : ℚ)
  | aabb (s : AABBState)
  | obb (o : OBBState)
  | capsule (p q : V3) (radius : ℚ)
deriving DecidableEq

/-- The polymorphic `isIntersecting` double dispatch, with an explicit
call-depth counter `fuel`; `none` means the mutual delegation exhausted the
allowed depth.  Each arm mirrors one concrete `isIntersecting`:

* the AABB's arm is `AxisAlignedBoundingBox::isIntersecting` from the
  source: direct branches for spheres and AABBs, then the fallback
  `bv->isIntersecting(self)` for everything else;
* the sphere's arm is modelled from the spec: each non-sphere argument is
  handled by delegating to that argument's own closest-point routine and
  comparing the squared distance (the capsule's routine compares against
  the radius sum, as the capsule component specifies);
* the OBB's arm is modelled from the spec: direct branches for spheres,
  AABBs (the mandatory OBB-vs-AABB terminal case of §9) and OBBs, fallback
  for capsules;
* the capsule's arm is modelled from the spec: direct branches for all
  four types. -/
def isIntersectingD : Nat → Volume → Volume → Option Bool
  | 0, _, _ => none
  | Nat.succ fuel, a, b =>
    match a, b with
    | Volume.sphere c r, Volume.sphere c2 r2 => some (sphereVsSphere c r c2 r2)
    | Volume.sphere c r, Volume.aabb s => some (aabbVsSphere s c r)
    | Volume.sphere c r, Volume.obb o => some (obbVsSphere o c r)
    | Volume.sphere c r, Volume.capsule p q rc => some (capsuleVsSphere p q rc c r)
    | Volume.aabb s, Volume.sphere c r => some (aabbVsSphere s c r)
    | Volume.aabb s, Volume.aabb b2 => some (aabbVsAabb s b2)
    | Volume.aabb s, bv => isIntersectingD fuel bv (Volume.aabb s)
    | Volume.obb o, Volume.sphere c r => some (obbVsSphere o c r)
    | Volume.obb o, Volume.aabb s => some (obbVsAabb o s)
    | Volume.obb o, Volume.obb o2 => some (obbVsObb o o2)
    | Volume.obb o, bv => isIntersectingD fuel bv (Volume.obb o)
    | Volume.capsule p q rc, Volume.sphere c r => some (capsuleVsSphere p q rc c r)
    | Volume.capsule p q rc, Volume.aabb s => some (capsuleVsAabb p q rc s)
    | Volume.capsule p q rc, Volume.obb o => some (capsuleVsObb p q rc o)
    | Volume.capsule p q rc, Volume.capsule p2 q2 r2 =>
        some (capsuleVsCapsule p q rc p2 q2 r2)

/-- `a.isIntersecting(b)` for the closed dispatch set: depth 2 always
suffices (every delegation reaches a direct branch in one hop). -/
def isIntersecting (a b : Volume) : Bool := (isIntersectingD 2 a b).getD false

/-- The glm matrix–vector product `R * q` for the rotation part:
`(R * q)[i] = Σ_j R[j][i] * q[j]` in column-major indexing. -/
def rotApply (m : Mat3) (q : V3) : V3 := fun i => ∑ j : Fin 3, m j i * q j

/-- A 3×3 matrix is orthonormal when its columns are pairwise orthogonal
unit vectors. -/
def orthonormal (m : Mat3) : Prop :=
  ∀ j k : Fin 3, dot (m j) (m k) = (if j = k then 1 else 0)

/-!
## Helper lemmas
-/

theorem V3.sub_apply (a b : V3) (i : Fin 3) : (a - b) i = a i - b i := rfl

theorem V3.add_apply (a b : V3) (i : Fin 3) : (a + b) i = a i + b i := rfl

theorem V3.smul_apply (t : ℚ) (a : V3) (i : Fin 3) : (t • a) i = t * a i := rfl

theorem dot_comm (a b : V3) : dot a b = dot b a := by
  simp only [dot]; ring

theorem dist2_comm (a b : V3) : dist2 a b = dist2 b a := by
  simp only [dist2, dot, V3.sub_apply]; ring

theorem updatedHalfExtent_eq_sum (ul : Mat3) (ihe : V3) (i : Fin 3) :
    updatedHalfExtent ul ihe i = ∑ j : Fin 3, |ul j i * ihe j| := by
  simp [updatedHalfExtent, List.foldl, Fin.sum_univ_three]

theorem sqDistStep_eq (mn mx p : V3) (acc : ℚ) (i : Fin 3) (h : mn i ≤ mx i) :
    sqDistStep mn mx p acc i =
      acc + max 0 (max (mn i - p i) (p i - mx i)) ^ 2 := by
  simp only [sqDistStep]
  split_ifs with h1 h2 h3
  · linarith
  · rw [max_eq_right (show mn i - p i ≤ p i - mx i by linarith),
      max_eq_right (show (0 : ℚ) ≤ p i - mx i by linarith)]
    ring
  · rw [max_eq_left (show p i - mx i ≤ mn i - p i by linarith),
      max_eq_right (show (0 : ℚ) ≤ mn i - p i by linarith)]
    ring
  · rw [max_eq_left (max_le (by linarith) (by linarith))]
    ring

/-!
## Claims about the AxisAlignedBoundingBox sources
-/

/-- C3: after `AxisAlignedBoundingBox::update(transform)` returns, for every
axis `i` the derived world half extent satisfies
`halfExtents[i] = Σ_j |R[j][i] * initialHalfExtents[j]|`, where `R` is the
upper-left 3×3 rotation part of the given transform. -/
theorem update_halfExtents_formula (s : AABBState) (t : Mat4) (i : Fin 3) :
    (update s t).halfExtents i =
      ∑ j : Fin 3, |upperLeft t j i * s.initialHalfExtents j| :=
  updatedHalfExtent_eq_sum (upperLeft t) s.initialHalfExtents i

/-- C4: the world half extents computed by `update` are conservative — for
any transform with orthonormal rotation part and any point `q` of the
initial box (`|q[j]| ≤ initialHalfExtents[j]`), the rotated point satisfies
`|(R*q)[i]| ≤ halfExtents[i]` on every axis, so the recomputed AABB fully
contains the rotated original box. -/
theorem update_conservative (s : AABBState) (t : Mat4)
    (horth : orthonormal (upperLeft t)) (q : V3)
    (hq : ∀ j : Fin 3, |q j| ≤ s.initialHalfExtents j) (i : Fin 3) :
    |rotApply (upperLeft t) q i| ≤ (update s t).halfExtents i := by
  have key : ∀ j : Fin 3,
      |upperLeft t j i * q j| ≤ |upperLeft t j i * s.initialHalfExtents j| := by
    intro j
    rw [abs_mul, abs_mul]
    refine mul_le_mul_of_nonneg_left ?_ (abs_nonneg _)
    rw [abs_of_nonneg (le_trans (abs_nonneg _) (hq j))]
    exact hq j
  calc |rotApply (upperLeft t) q i|
      ≤ ∑ j : Fin 3, |upperLeft t j i * q j| := Finset.abs_sum_le_sum_abs _ _
    _ ≤ ∑ j : Fin 3, |upperLeft t j i * s.initialHalfExtents j| :=
        Finset.sum_le_sum fun j _ => key j
    _ = (update s t).halfExtents i :=
        (updatedHalfExtent_eq_sum (upperLeft t) s.initialHalfExtents i).symm

/-- Witness for C4 at a concrete input: the identity rotation is
orthonormal, `q = (1, 0, 0)` lies in the unit box, and the bound holds. -/
theorem update_conservative_witness :
    orthonormal (upperLeft idMat4) ∧
      (∀ j : Fin 3, |(![1, 0, 0] : V3) j| ≤ (mkAABB ![1, 1, 1]).initialHalfExtents j) ∧
      |rotApply (upperLeft idMat4) ![1, 0, 0] 0| ≤
        (update (mkAABB ![1, 1, 1]) idMat4).halfExtents 0 :=
  ⟨by intro j k; fin_cases j <;> fin_cases k <;>
      norm_num [orthonormal, dot, upperLeft, idMat4, Fin.ext_iff, Fin.coe_castSucc],
   by intro j; fin_cases j <;> norm_num [mkAABB],
   update_conservative (mkAABB ![1, 1, 1]) idMat4
    (by intro j k; fin_cases j <;> fin_cases k <;>
      norm_num [orthonormal, dot, upperLeft, idMat4, Fin.ext_iff, Fin.coe_castSucc])
    ![1, 0, 0]
    (by intro j; fin_cases j <;> norm_num [mkAABB]) 0⟩

/-- C5: two AABBs intersect iff on every axis the center separation is at
most the sum of half extents; the boundary case (separation exactly equal
to the sum on some axis) counts as intersecting, since the code returns
`false` only on a strict `>`. -/
theorem aabb_aabb_intersection_iff (a b : AABBState) :
    isIntersecting (Volume.aabb a) (Volume.aabb b) = true ↔
      ∀ i : Fin 3, |getCenter a i - getCenter b i| ≤ a.halfExtents i + b.halfExtents i := by
  have h : isIntersecting (Volume.aabb a) (Volume.aabb b) = aabbVsAabb a b := rfl
  rw [h]
  simp only [aabbVsAabb, List.all_eq_true, decide_eq_true_eq, not_lt]
  constructor
  · intro hall i
    fin_cases i
    · exact hall 0 (by decide)
    · exact hall 1 (by decide)
    · exact hall 2 (by decide)
  · intro hall i _
    exact hall i

/-- C6: an AABB intersects a sphere iff the squared clamped point-to-box
distance from the sphere center is at most the radius squared. -/
theorem aabb_sphere_intersection_iff (a : AABBState) (c : V3) (r : ℚ) :
    isIntersecting (Volume.aabb a) (Volume.sphere c r) = true ↔
      getSquaredDistancePtPointAABB a c ≤ r ^ 2 := by
  have h : isIntersecting (Volume.aabb a) (Volume.sphere c r) = aabbVsSphere a c r := rfl
  rw [h]
  simp [aabbVsSphere, pow_two]

/-- C7: `getSquaredDistancePtPointAABB(p)` is the sum over the three axes
of the squared excess of `p[i]` outside
`[center[i] - halfExtents[i], center[i] + halfExtents[i]]`, with zero
contribution on axes where `p[i]` lies inside — the standard squared
distance from `p` to its closest point on the box. -/
theorem sqdist_point_aabb_formula (s : AABBState) (p : V3)
    (h : ∀ i : Fin 3, 0 ≤ s.halfExtents i) :
    getSquaredDistancePtPointAABB s p =
      ∑ i : Fin 3, max 0 (max ((getCenter s i - s.halfExtents i) - p i)
        (p i - (getCenter s i + s.halfExtents i))) ^ 2 := by
  have hm : ∀ i : Fin 3,
      (getCenter s - s.halfExtents) i ≤ (getCenter s + s.halfExtents) i := by
    intro i
    simp only [V3.sub_apply, V3.add_apply]
    linarith [h i]
  unfold getSquaredDistancePtPointAABB
  simp only [List.foldl]
  rw [sqDistStep_eq _ _ _ _ _ (hm 0), sqDistStep_eq _ _ _ _ _ (hm 1),
    sqDistStep_eq _ _ _ _ _ (hm 2)]
  simp only [V3.sub_apply, V3.add_apply, Fin.sum_univ_three]
  ring

/-- Witness for C7 at a concrete input: the unit box at the origin and the
point `(5, 0, 0)`, whose squared excess is `16`. -/
theorem sqdist_point_aabb_formula_witness :
    (∀ i : Fin 3, 0 ≤ (mkAABB ![1, 1, 1]).halfExtents i) ∧
      getSquaredDistancePtPointAABB (mkAABB ![1, 1, 1]) ![5, 0, 0] =
        ∑ i : Fin 3, max 0 (max ((getCenter (mkAABB ![1, 1, 1]) i -
            (mkAABB ![1, 1, 1]).halfExtents i) - (![5, 0, 0] : V3) i)
          ((![5, 0, 0] : V3) i - (getCenter (mkAABB ![1, 1, 1]) i +
            (mkAABB ![1, 1, 1]).halfExtents i))) ^ 2 :=
  ⟨by intro i; fin_cases i <;> norm_num [mkAABB],
   sqdist_point_aabb_formula (mkAABB ![1, 1, 1]) ![5, 0, 0]
    (by intro i; fin_cases i <;> norm_num [mkAABB])⟩

/-- C8: after `update(transform)` the stored transform's translation column
equals the input's translation column, and the derived center agrees with
it componentwise. -/
theorem update_translation_column (s : AABBState) (t : Mat4) :
    (update s t).transform 3 = t 3 ∧
      ∀ i : Fin 3, getCenter (update s t) i = t 3 i.castSucc := by
  constructor
  · funext i
    simp [update, setCol3]
  · intro i
    simp [getCenter, update, setCol3]

/-- C9: `update(identity)` on a freshly constructed AABB (nonnegative half
extents) leaves every field at its construction-time value; in particular
`halfExtents` equals the `initialHalfExtents` given to the constructor. -/
theorem update_identity_fresh (ihe : V3) (h : ∀ i : Fin 3, 0 ≤ ihe i) :
    update (mkAABB ihe) idMat4 = mkAABB ihe := by
  show AABBState.mk ihe (fun i => updatedHalfExtent (upperLeft idMat4) ihe i)
      (setCol3 (mat4OfMat3 (upperLeft idMat4)) (idMat4 3)) = AABBState.mk ihe ihe idMat4
  rw [AABBState.mk.injEq]
  refine ⟨rfl, ?_, by funext j i; fin_cases j <;> fin_cases i <;> rfl⟩
  funext i
  fin_cases i <;>
    norm_num [updatedHalfExtent, upperLeft, idMat4, List.foldl, Fin.ext_iff,
      Fin.coe_castSucc] <;>
    first
      | exact h _
      | exact abs_of_nonneg (h 2)

/-- Witness for C9 at a concrete input: the unit box. -/
theorem update_identity_fresh_witness :
    (∀ i : Fin 3, 0 ≤ (![1, 1, 1] : V3) i) ∧
      update (mkAABB ![1, 1, 1]) idMat4 = mkAABB ![1, 1, 1] :=
  ⟨by intro i; fin_cases i <;> norm_num,
   update_identity_fresh ![1, 1, 1] (by intro i; fin_cases i <;> norm_num)⟩

/-- C10: `update` never touches `initialHalfExtents` — only the derived
`halfExtents` and the stored transform are recomputed — so updating twice
with the same transform gives the same state as updating once. -/
theorem update_preserves_rest_shape (s : AABBState) (t : Mat4) :
    (update s t).initialHalfExtents = s.initialHalfExtents ∧
      update (update s t) t = update s t :=
  ⟨rfl, rfl⟩

/-!
## Symmetry of the double dispatch
-/

theorem V3.neg_apply (a : V3) (i : Fin 3) : (-a) i = -(a i) := rfl

theorem dot_neg_right (a b : V3) : dot a (-b) = -(dot a b) := by
  simp only [dot, V3.neg_apply]; ring

theorem cross_antisymm (a b : V3) : cross b a = -(cross a b) := by
  funext i
  fin_cases i <;> simp [cross, V3.neg_apply] <;> ring

theorem sphereVsSphere_comm (c1 : V3) (r1 : ℚ) (c2 : V3) (r2 : ℚ) :
    sphereVsSphere c1 r1 c2 r2 = sphereVsSphere c2 r2 c1 r1 := by
  simp only [sphereVsSphere]
  rw [dist2_comm c1 c2, add_comm r1 r2]

theorem aabbVsAabb_comm (a b : AABBState) : aabbVsAabb a b = aabbVsAabb b a := by
  have h : ∀ i : Fin 3,
      decide (¬ |getCenter a i - getCenter b i| > a.halfExtents i + b.halfExtents i) =
        decide (¬ |getCenter b i - getCenter a i| > b.halfExtents i + a.halfExtents i) := by
    intro i
    rw [Bool.eq_iff_iff, decide_eq_true_eq, decide_eq_true_eq,
      abs_sub_comm (getCenter a i), add_comm (a.halfExtents i)]
  simp only [aabbVsAabb, List.all_cons, List.all_nil]
  rw [h 0, h 1, h 2]

theorem projRadius_neg (o : OBBState) (l : V3) : projRadius o (-l) = projRadius o l := by
  simp only [projRadius, dot_neg_right, abs_neg]

theorem sepAxis_comm (o1 o2 : OBBState) (l : V3) : sepAxis o1 o2 l = sepAxis o2 o1 l := by
  have h : dot (o2.center - o1.center) l = -(dot (o1.center - o2.center) l) := by
    simp only [dot, V3.sub_apply]; ring
  rw [sepAxis, sepAxis, Bool.eq_iff_iff, decide_eq_true_eq, decide_eq_true_eq, h,
    abs_neg, add_comm (projRadius o1 l)]

theorem sepAxis_negAxis (o1 o2 : OBBState) (l : V3) :
    sepAxis o1 o2 (-l) = sepAxis o1 o2 l := by
  rw [sepAxis, sepAxis, dot_neg_right, abs_neg, projRadius_neg, projRadius_neg]

theorem satAxes_any_comm (o1 o2 : OBBState) :
    (satAxes o2 o1).any (sepAxis o2 o1) = (satAxes o1 o2).any (sepAxis o1 o2) := by
  simp only [satAxes, List.any_cons, List.any_nil, Bool.or_false]
  simp only [sepAxis_comm o2 o1]
  rw [show cross o2.xAxis o1.xAxis = -(cross o1.xAxis o2.xAxis) from cross_antisymm _ _,
    show cross o2.xAxis o1.yAxis = -(cross o1.yAxis o2.xAxis) from cross_antisymm _ _,
    show cross o2.xAxis o1.zAxis = -(cross o1.zAxis o2.xAxis) from cross_antisymm _ _,
    show cross o2.yAxis o1.xAxis = -(cross o1.xAxis o2.yAxis) from cross_antisymm _ _,
    show cross o2.yAxis o1.yAxis = -(cross o1.yAxis o2.yAxis) from cross_antisymm _ _,
    show cross o2.yAxis o1.zAxis = -(cross o1.zAxis o2.yAxis) from cross_antisymm _ _,
    show cross o2.zAxis o1.xAxis = -(cross o1.xAxis o2.zAxis) from cross_antisymm _ _,
    show cross o2.zAxis o1.yAxis = -(cross o1.yAxis o2.zAxis) from cross_antisymm _ _,
    show cross o2.zAxis o1.zAxis = -(cross o1.zAxis o2.zAxis) from cross_antisymm _ _]
  simp only [sepAxis_negAxis]
  simp only [Bool.or_comm, Bool.or_left_comm, Bool.or_assoc]

theorem obbVsObb_comm (o1 o2 : OBBState) : obbVsObb o1 o2 = obbVsObb o2 o1 := by
  simp only [obbVsObb, satAxes_any_comm o1 o2]

theorem segSegAux_swap (a e b c f : ℚ) (vI vI' : ℚ → ℚ → ℚ) (vE : ℚ)
    (hI : ∀ s t, vI' s t = vI t s) :
    segSegAux e a b (-f) (-c) vI' vE = segSegAux a e b c f vI vE := by
  unfold segSegAux
  have hden : e * a - b * b = a * e - b * b := by ring
  rw [hden]
  by_cases hd : a * e - b * b = 0
  · simp [hd]
  · simp only [hd, if_false]
    have hs : b * -c - -f * a = a * f - b * c := by ring
    have ht : e * -c - b * -f = b * f - c * e := by ring
    rw [hs, ht]
    exact if_congr (by tauto) (hI _ _) rfl

theorem segSegDist2_comm (p1 q1 p2 q2 : V3) :
    segSegDist2 p1 q1 p2 q2 = segSegDist2 p2 q2 p1 q1 := by
  unfold segSegDist2
  dsimp only
  rw [show dot (q2 - p2) (q1 - p1) = dot (q1 - p1) (q2 - p2) from dot_comm _ _,
    show dot (q2 - p2) (p2 - p1) = -(dot (q2 - p2) (p1 - p2)) by
      simp only [dot, V3.sub_apply]; ring,
    show dot (q1 - p1) (p2 - p1) = -(dot (q1 - p1) (p1 - p2)) by
      simp only [dot, V3.sub_apply]; ring,
    min_comm (min (pointSegDist2 p2 p1 q1) (pointSegDist2 q2 p1 q1))
      (min (pointSegDist2 p1 p2 q2) (pointSegDist2 q1 p2 q2))]
  exact (segSegAux_swap _ _ _ _ _ _ _ _ fun s t => dist2_comm _ _).symm

theorem capsuleVsCapsule_comm (p1 q1 : V3) (r1 : ℚ) (p2 q2 : V3) (r2 : ℚ) :
    capsuleVsCapsule p1 q1 r1 p2 q2 r2 = capsuleVsCapsule p2 q2 r2 p1 q1 r1 := by
  simp only [capsuleVsCapsule]
  rw [segSegDist2_comm p1 q1 p2 q2, add_comm r1 r2]

/-- C1: `isIntersecting` is symmetric — for every pair of bounding volumes
drawn from the four concrete types, `a.isIntersecting(b)` returns the same
boolean as `b.isIntersecting(a)`.  Same-type pairs use tests that are
symmetric in their operands; cross-type pairs either share the owning
type's test on both sides or reach it through the double-dispatch
fallback. -/
theorem isIntersecting_symmetric (a b : Volume) :
    isIntersecting a b = isIntersecting b a := by
  cases a <;> cases b <;> try rfl
  case sphere.sphere c r c2 r2 =>
    show sphereVsSphere c r c2 r2 = sphereVsSphere c2 r2 c r
    exact sphereVsSphere_comm c r c2 r2
  case aabb.aabb s b2 =>
    show aabbVsAabb s b2 = aabbVsAabb b2 s
    exact aabbVsAabb_comm s b2
  case obb.obb o o2 =>
    show obbVsObb o o2 = obbVsObb o2 o
    exact obbVsObb_comm o o2
  case capsule.capsule p q rc p2 q2 r2 =>
    show capsuleVsCapsule p q rc p2 q2 r2 = capsuleVsCapsule p2 q2 r2 p q rc
    exact capsuleVsCapsule_comm p q rc p2 q2 r2

/-- C2: the double dispatch terminates for every pairing of the four
concrete types — call depth 2 already yields an answer, because every
delegation (AABB→OBB, AABB→Capsule, OBB→Capsule) reaches a direct branch
of the argument in one hop. -/
theorem dispatch_terminates (a b : Volume) :
    (isIntersectingD 2 a b).isSome = true := by
  cases a <;> cases b <;> rfl

end Collision
